import Mathlib

/-!
Verification of the BitVM-style off-chain prover/watcher (BitVM.py,
PSBTgen.py, PSBTlib.py) against its natural-language specification.

The embedding is executable: byte strings are `List Nat` with every element
below 256, and SHA-256 is implemented in full (FIPS 180-4) so that the
hash-chain commitment scheme of the source can be evaluated on concrete
inputs inside proofs.
-/

namespace BRF

/-- Reduce to a 32-bit word, as all SHA-256 word arithmetic is mod 2^32. -/
def w32 (n : Nat) : Nat := n % 4294967296

/-- Right rotation of a 32-bit word by `k` places. -/
def rotr (k x : Nat) : Nat := w32 ((x >>> k) ||| (x <<< (32 - k)))

/-- Bitwise complement of a 32-bit word. -/
def compl32 (x : Nat) : Nat := 4294967295 ^^^ x

def smallSigma0 (x : Nat) : Nat := (rotr 7 x) ^^^ (rotr 18 x) ^^^ (x >>> 3)

def smallSigma1 (x : Nat) : Nat := (rotr 17 x) ^^^ (rotr 19 x) ^^^ (x >>> 10)

def bigSigma0 (x : Nat) : Nat := (rotr 2 x) ^^^ (rotr 13 x) ^^^ (rotr 22 x)

def bigSigma1 (x : Nat) : Nat := (rotr 6 x) ^^^ (rotr 11 x) ^^^ (rotr 25 x)

def chF (x y z : Nat) : Nat := (x &&& y) ^^^ ((compl32 x) &&& z)

def majF (x y z : Nat) : Nat := (x &&& y) ^^^ (x &&& z) ^^^ (y &&& z)

/-- The 64 SHA-256 round constants of FIPS 180-4 (the fractional parts of
the cube roots of the first 64 primes), written in decimal. -/
def shaK : List Nat :=
  [1116352408, 1899447441, 3049323471, 3921009573, 961987163,
   1508970993, 2453635748, 2870763221, 3624381080, 310598401, 607225278,
   1426881987, 1925078388, 2162078206, 2614888103, 3248222580,
   3835390401, 4022224774, 264347078, 604807628, 770255983, 1249150122,
   1555081692, 1996064986, 2554220882, 2821834349, 2952996808,
   3210313671, 3336571891, 3584528711, 113926993, 338241895, 666307205,
   773529912, 1294757372, 1396182291, 1695183700, 1986661051,
   2177026350, 2456956037, 2730485921, 2820302411, 3259730800,
   3345764771, 3516065817, 3600352804, 4094571909, 275423344, 430227734,
   506948616, 659060556, 883997877, 958139571, 1322822218, 1537002063,
   1747873779, 1955562222, 2024104815, 2227730452, 2361852424,
   2428436474, 2756734187, 3204031479, 3329325298]

/-- The initial SHA-256 hash state of FIPS 180-4, written in decimal. -/
def shaH0 : List Nat :=
  [1779033703, 3144134277, 1013904242, 2773480762, 1359893119,
   2600822924, 528734635, 1541459225]

/-- Extend a 16-word block to the 64-word message schedule (fuel = 48). -/
def buildSchedule (ws : List Nat) : Nat → List Nat
  | 0 => ws
  | n + 1 =>
    let t := ws.length
    let w := w32 (smallSigma1 (ws.getD (t - 2) 0) + ws.getD (t - 7) 0 +
                  smallSigma0 (ws.getD (t - 15) 0) + ws.getD (t - 16) 0)
    buildSchedule (ws ++ [w]) n

/-- One compression round: the state is the 8-word list [a,b,c,d,e,f,g,h];
`wk` pairs the schedule word with the round constant. -/
def compressStep (st : List Nat) (wk : Nat × Nat) : List Nat :=
  match st with
  | [a, b, c, d, e, f, g, h] =>
    let t1 := w32 (h + bigSigma1 e + chF e f g + wk.2 + wk.1)
    let t2 := w32 (bigSigma0 a + majF a b c)
    [w32 (t1 + t2), a, b, c, w32 (d + t1), e, f, g]
  | other => other

/-- Compress one 16-word block into the running hash state. -/
def compressBlock (h : List Nat) (blockWords : List Nat) : List Nat :=
  let ws := buildSchedule blockWords 48
  let st := (ws.zip shaK).foldl compressStep h
  (h.zip st).map (fun p => w32 (p.1 + p.2))

/-- The 8-byte big-endian encoding of the bit length. -/
def lengthBytes (n : Nat) : List Nat :=
  (List.range 8).map (fun i => (n >>> (8 * (7 - i))) % 256)

/-- FIPS 180-4 padding: append 0x80, zeros to 56 mod 64, and the 64-bit
big-endian bit length. -/
def padMessage (msg : List Nat) : List Nat :=
  let l := msg.length
  let zeros := (64 - ((l + 9) % 64)) % 64
  msg ++ [0x80] ++ List.replicate zeros 0 ++ lengthBytes (8 * l)

/-- Big-endian bytes to 32-bit words (length assumed a multiple of 4). -/
def bytesToWords : List Nat → List Nat
  | b0 :: b1 :: b2 :: b3 :: rest =>
    ((b0 <<< 24) ||| (b1 <<< 16) ||| (b2 <<< 8) ||| b3) :: bytesToWords rest
  | _ => []

/-- Fold the compression function over the 16-word chunks of the message;
the fuel argument (instantiated with the word count, an upper bound on the
number of chunks) keeps the recursion structural. -/
def processChunksFuel : Nat → List Nat → List Nat → List Nat
  | 0, h, _ => h
  | fuel + 1, h, ws =>
    if ws.length < 16 then h
    else processChunksFuel fuel (compressBlock h (ws.take 16)) (ws.drop 16)

def processChunks (h : List Nat) (ws : List Nat) : List Nat :=
  processChunksFuel ws.length h ws

/-- A 32-bit word as 4 big-endian bytes. -/
def wordToBytes (w : Nat) : List Nat :=
  [(w >>> 24) % 256, (w >>> 16) % 256, (w >>> 8) % 256, w % 256]

/-- SHA-256 of a byte string, as a 32-element byte string. -/
def sha256 (msg : List Nat) : List Nat :=
  List.flatten ((processChunks shaH0 (bytesToWords (padMessage msg))).map wordToBytes)

/-- Hex digit for a nibble, lowercase as Python's `hexdigest` produces. -/
def nibbleToChar (n : Nat) : Char :=
  if n < 10 then Char.ofNat (48 + n) else Char.ofNat (87 + n)

/-- Two lowercase hex digits of one byte. -/
def byteToHex (b : Nat) : List Char :=
  [nibbleToChar ((b / 16) % 16), nibbleToChar (b % 16)]

/-- Lowercase hex encoding of a byte string (Python `bytes.hex` or
`sha256(...).hexdigest`). -/
def hexEncode (bs : List Nat) : List Char := List.flatten (bs.map byteToHex)

/-- Value of one hex digit (0 for a character that is no hex digit; the
source only ever decodes strings its own encoder produced). -/
def charToNibble (c : Char) : Nat :=
  if 48 ≤ c.toNat ∧ c.toNat ≤ 57 then c.toNat - 48
  else if 97 ≤ c.toNat ∧ c.toNat ≤ 102 then c.toNat - 87
  else if 65 ≤ c.toNat ∧ c.toNat ≤ 70 then c.toNat - 55
  else 0

/-- Decode a hex string to bytes, two digits per byte (Python
`bytes.fromhex` on the strings the block store holds). -/
def hexDecode : List Char → List Nat
  | c1 :: c2 :: rest => (charToNibble c1 * 16 + charToNibble c2) :: hexDecode rest
  | _ => []

/-! The hash-chain commitment (HashChainCommitment)

`BitVM.step_chain` (PSBTgen.py, lines 13-18) builds the chain forward from
the seed and returns it reversed (`chain[::-1]`).  The watcher's
verification (BitVM.py, lines 144-148) checks `sha256(bytes.fromhex(
step_data[i])).hexdigest() == step_data[i + 1]` over every adjacent index
of the stored hex-encoded chain. -/

namespace BitVM

/-- The forward chain `[seed, H(seed), ..., H^steps(seed)]`: the list the
Python loop `chain = [seed]; for _ in range(steps): chain.append(
sha256(chain[-1]).digest())` leaves in `chain` before the final reversal. -/
def forwardChain (seed : List Nat) : Nat → List (List Nat)
  | 0 => [seed]
  | n + 1 => seed :: forwardChain (sha256 seed) n

/-- PSBTgen.py, `BitVM.step_chain`: the forward chain returned reversed
(`return chain[::-1]`). -/
def step_chain (seed : List Nat) (steps : Nat) : List (List Nat) :=
  (forwardChain seed steps).reverse

end BitVM

/-- BitVM.py, lines 144-148 (`process_challenge`): `all(sha256(bytes.fromhex(
step_data[i])).hexdigest() == step_data[i + 1] for i in range(len(step_data)
- 1))` — every adjacent pair of the stored hex chain, in stored order, must
satisfy the hash relation; fewer than two elements verify vacuously. -/
def verifyChain : List (List Char) → Bool
  | a :: b :: rest =>
    (hexEncode (sha256 (hexDecode a)) == b) && verifyChain (b :: rest)
  | _ => true

/-- The seed of the source's end-to-end scenario, `b'init'` (PSBTgen.py,
line 30). -/
def initSeed : List Nat := [0x69, 0x6e, 0x69, 0x74]

/-! Byte-level facts used by the chain theorems -/

theorem wordToBytes_lt (w : Nat) : ∀ b ∈ wordToBytes w, b < 256 := by
  intro b hb
  simp [wordToBytes] at hb
  rcases hb with h | h | h | h <;> omega

theorem sha256_lt (m : List Nat) : ∀ b ∈ sha256 m, b < 256 := by
  intro b hb
  simp only [sha256, List.mem_flatten, List.mem_map] at hb
  obtain ⟨l, ⟨w, _, rfl⟩, hbl⟩ := hb
  exact wordToBytes_lt w b hbl

theorem charToNibble_nibbleToChar : ∀ n < 16, charToNibble (nibbleToChar n) = n := by
  decide

theorem hexDecode_byteToHex (b : Nat) (hb : b < 256) (rest : List Char) :
    hexDecode (byteToHex b ++ rest) = b :: hexDecode rest := by
  show hexDecode (nibbleToChar (b / 16 % 16) :: nibbleToChar (b % 16) :: rest) = _
  show (charToNibble (nibbleToChar (b / 16 % 16)) * 16 +
        charToNibble (nibbleToChar (b % 16))) :: hexDecode rest = _
  rw [charToNibble_nibbleToChar _ (by omega), charToNibble_nibbleToChar _ (by omega)]
  have : b / 16 % 16 * 16 + b % 16 = b := by omega
  rw [this]

theorem hexDecode_hexEncode (bs : List Nat) (h : ∀ b ∈ bs, b < 256) :
    hexDecode (hexEncode bs) = bs := by
  induction bs with
  | nil => rfl
  | cons b t ih =>
    have hb : b < 256 := h b (by simp)
    have hEnc : hexEncode (b :: t) = byteToHex b ++ hexEncode t := by
      simp [hexEncode]
    rw [hEnc, hexDecode_byteToHex b hb, ih (fun x hx => h x (by simp [hx]))]

/-- Verification succeeds on every forward (seed-first) chain: each adjacent
pair is `(x, sha256 x)`. -/
theorem verifyChain_forwardChain :
    ∀ (n : Nat) (s : List Nat), (∀ b ∈ s, b < 256) →
      verifyChain ((BitVM.forwardChain s n).map hexEncode) = true := by
  intro n
  induction n with
  | zero => intro s _; rfl
  | succ n ih =>
    intro s hs
    obtain ⟨t, ht⟩ : ∃ t, BitVM.forwardChain (sha256 s) n = sha256 s :: t := by
      cases n <;> exact ⟨_, rfl⟩
    have htail : verifyChain (hexEncode (sha256 s) :: t.map hexEncode) = true := by
      have := ih (sha256 s) (sha256_lt s)
      rwa [ht, List.map_cons] at this
    show verifyChain ((List.map hexEncode (BitVM.forwardChain s (n + 1)))) = true
    rw [show BitVM.forwardChain s (n + 1) = s :: BitVM.forwardChain (sha256 s) n from rfl,
        ht, List.map_cons, List.map_cons]
    show ((hexEncode (sha256 (hexDecode (hexEncode s))) == hexEncode (sha256 s))
          && verifyChain (hexEncode (sha256 s) :: t.map hexEncode)) = true
    rw [hexDecode_hexEncode s hs, htail]
    simp

/-! Claims C1 and C2 -/

set_option maxRecDepth 100000 in
/-- C1 (as stated, refuted): with the 4-byte seed `b'init'` and one step,
verifying the chain in the order `build` returns it fails — `step_chain`
returns the chain reversed (hash first, seed last) while verification
checks the hash relation in ascending stored order. -/
theorem spec_C1_counterexample :
    verifyChain ((BitVM.step_chain initSeed 1).map hexEncode) = false := by
  decide

/-- C1 (amended): for every byte-string seed and every step count n ≥ 1,
verification succeeds on the REVERSE of what `build` returns — build and
verify use opposite orders of the same conceptual chain. -/
theorem spec_C1_amended (seed : List Nat) (hseed : ∀ b ∈ seed, b < 256)
    (n : Nat) (_hn : 1 ≤ n) :
    verifyChain (((BitVM.step_chain seed n).reverse).map hexEncode) = true := by
  rw [BitVM.step_chain, List.reverse_reverse]
  exact verifyChain_forwardChain n seed hseed

theorem spec_C1_witness :
    verifyChain (((BitVM.step_chain initSeed 1).reverse).map hexEncode) = true :=
  spec_C1_amended initSeed (by decide) 1 (by decide)

/-- C2: the verification predicate is true exactly when every adjacent pair
`(a, b)` of the chain, taken in stored order, satisfies
`SHA256(a) = b` (over the hex encoding, as the source checks it); it is a
pure predicate, and it is false exactly when some adjacent pair violates
the relation. -/
theorem spec_C2 (chain : List (List Char)) :
    verifyChain chain = true ↔
      ∀ p ∈ chain.zip chain.tail, hexEncode (sha256 (hexDecode p.1)) = p.2 := by
  induction chain with
  | nil => simp [verifyChain]
  | cons a t ih =>
    cases t with
    | nil => simp [verifyChain]
    | cons b r =>
      show ((hexEncode (sha256 (hexDecode a)) == b) && verifyChain (b :: r)) = true ↔ _
      rw [Bool.and_eq_true, beq_iff_eq, ih]
      constructor
      · rintro ⟨h1, h2⟩ p hp
        rcases List.mem_cons.mp hp with rfl | hp'
        · exact h1
        · exact h2 p (by simpa using hp')
      · intro h
        refine ⟨h (a, b) (by simp), fun p hp => h p ?_⟩
        simp only [List.zip, List.tail_cons] at hp ⊢
        exact List.mem_cons_of_mem _ hp

/-! The challenge watcher (BitVM.py, `watch_for_challenges` /
`process_challenge`)

A stored rollup block record, with the protocol fields the watcher reads
and writes.  In the source a block is a JSON mapping and flags are read
with `block.get(...)`, so an absent flag reads as falsy; the embedding
carries the flags as `Bool`. -/

structure RollupBlock where
  challenged : Bool
  proof_generated : Bool
  proof_verified : Bool
  step_chain : List (List Char)
deriving DecidableEq

/-- BitVM.py, lines 144-152: verify the stored `step_chain`, record the
result in `proof_verified`, and set `proof_generated = True`
unconditionally (the assignment does not depend on `verified`). -/
def process_challenge (b : RollupBlock) : RollupBlock :=
  { b with proof_verified := verifyChain b.step_chain, proof_generated := true }

/-- BitVM.py, lines 133-139: one poll tick of `watch_for_challenges` —
every stored block with `challenged` set and `proof_generated` unset is
processed; every other block is untouched. -/
def watch_tick (blocks : List RollupBlock) : List RollupBlock :=
  blocks.map (fun b =>
    if b.challenged && !b.proof_generated then process_challenge b else b)

/-- C4: a poll tick processes exactly the blocks with
`challenged && !proof_generated`; each of those gets `proof_verified`
set to the chain-verification result and `proof_generated` set to true
unconditionally (also when verification returned false); all other blocks
are unchanged. -/
theorem spec_C4 (blocks : List RollupBlock) (i : Nat) :
    (watch_tick blocks)[i]? = (blocks[i]?).map (fun b =>
      if b.challenged && !b.proof_generated then
        { b with proof_verified := verifyChain b.step_chain,
                 proof_generated := true }
      else b)
    ∧ ∀ b : RollupBlock, (process_challenge b).proof_generated = true
        ∧ (process_challenge b).proof_verified = verifyChain b.step_chain := by
  refine ⟨?_, fun b => ⟨rfl, rfl⟩⟩
  simp [watch_tick, List.getElem?_map, process_challenge]

/-- C9: a stored chain with fewer than two elements verifies vacuously
true — the generator in the source ranges over `len(step_data) - 1`
indices — and the block is recorded with `proof_verified = true` and
`proof_generated = true`; no error of any kind is raised (the embedding of
`process_challenge` is a total function). -/
theorem spec_C9 (b : RollupBlock) (h : b.step_chain.length < 2) :
    (process_challenge b).proof_verified = true ∧
    (process_challenge b).proof_generated = true := by
  refine ⟨?_, rfl⟩
  show verifyChain b.step_chain = true
  rcases hc : b.step_chain with _ | ⟨a, t⟩
  · rfl
  · rcases t with _ | ⟨c, r⟩
    · rfl
    · rw [hc] at h
      simp at h
      omega

theorem spec_C9_witness :
    (process_challenge ⟨true, false, false, []⟩).proof_verified = true ∧
    (process_challenge ⟨true, false, false, []⟩).proof_generated = true :=
  spec_C9 ⟨true, false, false, []⟩ (by decide)

/-! The rollup block store (BitVM.py, `store_rollup_block`,
`pin_to_ipfs`, `fetch_from_ipfs`, `load_block`)

Block records cross the store boundary as their canonical JSON encoding
(`json.dumps`), so the embedding carries a block's content as that byte
string.  The external collaborators (the `ipfs` binary, the cluster-pin
HTTP endpoint) are modelled by an environment record holding their
observable outcomes. -/

/-- One entry of the append-only `ipfs_commit_history.json`. -/
structure CommitLogEntry where
  ipfs_hash : List Char
  timestamp : Nat
deriving DecidableEq

/-- The store's on-disk state: the pin history and the block database
(newest write first; a lookup sees the newest record for a key, matching
file overwrite). -/
structure StoreState where
  history : List CommitLogEntry
  db : List (List Char × List Nat)
deriving DecidableEq

/-- Outcomes of the external content-store collaborator during one store
operation: whether the `ipfs` binary exists (`shutil.which("ipfs")`), the
handle `ipfs add` returns, whether pinning (local pin + cluster POST)
succeeds, and the wall clock. -/
structure PinEnv where
  ipfsAvailable : Bool
  addHandle : List Char
  pinSucceeds : Bool
  now : Nat
deriving DecidableEq

inductive StoreError where
  | NotFound
deriving DecidableEq

def dbInsert (db : List (List Char × List Nat)) (k : List Char) (v : List Nat) :
    List (List Char × List Nat) :=
  (k, v) :: db

def dbLookup (db : List (List Char × List Nat)) (k : List Char) :
    Option (List Nat) :=
  (db.find? (fun p => p.1 == k)).map Prod.snd

/-- BitVM.py, lines 31-32 / 116: the 16-hex-character prefix of the SHA-256
of the block's canonical JSON encoding. -/
def computeBlockId (content : List Nat) : List Char :=
  (hexEncode (sha256 content)).take 16

/-- BitVM.py, lines 43-53 (`pin_to_ipfs`): pins locally, POSTs to the
cluster endpoint, and only prints the outcome; every exception is caught
inside the function, so it touches no store state regardless of
`env.pinSucceeds`. -/
def pin_to_ipfs (_env : PinEnv) (st : StoreState) : StoreState := st

/-- BitVM.py, lines 104-121 (`store_rollup_block`): when the `ipfs` binary
is available, add the content, call `pin_to_ipfs`, and append a history
entry (the append at line 113 is unconditional — it does not inspect the
pin outcome); then, in every case, write the block record locally under
the given id or the recomputed content id.  Returns the new state and the
id written. -/
def store_rollup_block (env : PinEnv) (st : StoreState) (content : List Nat)
    (blockId : Option (List Char)) : StoreState × List Char :=
  let st1 :=
    if env.ipfsAvailable then
      let st' := pin_to_ipfs env st
      { st' with history := st'.history ++ [⟨env.addHandle, env.now⟩] }
    else st
  let id := blockId.getD (computeBlockId content)
  ({ st1 with db := dbInsert st1.db id content }, id)

/-- BitVM.py, lines 126-129 (`load_block`): reads
`rollup_block_{block_id}.json`; a missing record fails (file not found). -/
def load_block (st : StoreState) (blockId : List Char) :
    Except StoreError (List Nat) :=
  match dbLookup st.db blockId with
  | some c => Except.ok c
  | none => Except.error StoreError.NotFound

/-- BitVM.py, lines 25-41 (`fetch_from_ipfs`): on success the fetched
content is stored locally under `actual`, the recomputed 16-hex-char
content-hash prefix (line 37 passes `block_id=actual`), whatever the
requested handle was; a hash mismatch is only printed.  On any internal
failure the function returns an empty mapping (`{}`, modelled `none`) and
the store is untouched. -/
def fetch_from_ipfs (env : PinEnv) (st : StoreState) (_ipfsHash : List Char)
    (fetched : Option (List Nat)) : StoreState × Option (List Nat) :=
  match fetched with
  | none => (st, none)
  | some content =>
    let actual := computeBlockId content
    ((store_rollup_block env st content (some actual)).1, some content)

/-- C6 (amended): the local write always happens — the stored block is
retrievable under the returned id whatever the pin outcome — and a
CommitLogEntry {handle, timestamp} is appended exactly when the `ipfs`
binary is available, regardless of whether pinning succeeded (the source
appends after `pin_to_ipfs` without inspecting its outcome). -/
theorem spec_C6_amended (env : PinEnv) (st : StoreState) (content : List Nat)
    (blockId : Option (List Char)) :
    dbLookup (store_rollup_block env st content blockId).1.db
        (store_rollup_block env st content blockId).2 = some content ∧
    (store_rollup_block env st content blockId).1.history =
      st.history ++
        (if env.ipfsAvailable then [⟨env.addHandle, env.now⟩] else []) := by
  obtain ⟨avail, handle, pin, now⟩ := env
  cases avail <;>
    simp [store_rollup_block, pin_to_ipfs, dbInsert, dbLookup, List.find?_cons]

/-- C6 (as stated, refuted): with the `ipfs` binary available and pinning
failing, the history entry is still appended — the append is not
conditioned on a successful pin. -/
theorem spec_C6_counterexample :
    (PinEnv.mk true ['Q'] false 7).pinSucceeds = false ∧
    (store_rollup_block (PinEnv.mk true ['Q'] false 7) ⟨[], []⟩ [0] none).1.history =
      [⟨['Q'], 7⟩] :=
  ⟨rfl, rfl⟩

/-- C10: a successful fetch stores the content under the recomputed
16-hex-char content-hash prefix, not under the requested handle's prefix;
when the two disagree (and nothing was stored under the requested prefix
before), a subsequent `load_block` by the requested prefix fails with
NotFound; and a failed fetch returns the empty result with the store
untouched. -/
theorem spec_C10 (env : PinEnv) (st : StoreState) (ipfsHash : List Char)
    (content : List Nat)
    (hne : ipfsHash.take 16 ≠ computeBlockId content)
    (habs : dbLookup st.db (ipfsHash.take 16) = none) :
    dbLookup (fetch_from_ipfs env st ipfsHash (some content)).1.db
        (computeBlockId content) = some content ∧
    load_block (fetch_from_ipfs env st ipfsHash (some content)).1
        (ipfsHash.take 16) = Except.error StoreError.NotFound ∧
    fetch_from_ipfs env st ipfsHash none = (st, none) := by
  obtain ⟨avail, handle, pin, now⟩ := env
  have hbeq : (computeBlockId content == ipfsHash.take 16) = false :=
    beq_eq_false_iff_ne.mpr (Ne.symm hne)
  refine ⟨?_, ?_, rfl⟩
  · cases avail <;>
      simp [fetch_from_ipfs, store_rollup_block, pin_to_ipfs, dbInsert,
            dbLookup, List.find?_cons]
  · have hmiss : dbLookup (fetch_from_ipfs ⟨avail, handle, pin, now⟩ st
        ipfsHash (some content)).1.db (ipfsHash.take 16) = none := by
      cases avail <;>
        simp [fetch_from_ipfs, store_rollup_block, pin_to_ipfs, dbInsert,
              dbLookup, List.find?_cons, hbeq] <;>
        simpa [dbLookup] using habs
    simp [load_block, hmiss]

theorem spec_C10_witness :
    dbLookup (fetch_from_ipfs ⟨false, [], false, 0⟩ ⟨[], []⟩
        "QmDemoHandle0000".toList (some [1, 2, 3])).1.db
        (computeBlockId [1, 2, 3]) = some [1, 2, 3] ∧
    load_block (fetch_from_ipfs ⟨false, [], false, 0⟩ ⟨[], []⟩
        "QmDemoHandle0000".toList (some [1, 2, 3])).1
        ("QmDemoHandle0000".toList.take 16) =
      Except.error StoreError.NotFound ∧
    fetch_from_ipfs ⟨false, [], false, 0⟩ ⟨[], []⟩
        "QmDemoHandle0000".toList none = (⟨[], []⟩, none) :=
  spec_C10 ⟨false, [], false, 0⟩ ⟨[], []⟩ "QmDemoHandle0000".toList [1, 2, 3]
    (by decide) rfl

/-! The post-broadcast commitment check (BitVM.py, lines 206-216): scan the
broadcast transaction's outputs for an `OP_RETURN` data script containing
the hex commitment. -/

/-- Python `str.startswith`. -/
def leadsWith : List Char → List Char → Bool
  | [], _ => true
  | _ :: _, [] => false
  | p :: ps, c :: cs => (p == c) && leadsWith ps cs

/-- Python substring membership (`sub in s`). -/
def containsSeq (pat : List Char) : List Char → Bool
  | [] => pat.isEmpty
  | c :: cs => leadsWith pat (c :: cs) || containsSeq pat cs

def opReturnTag : List Char := "OP_RETURN".toList

/-- A Python runtime error the scan can raise. -/
inductive PyError where
  | UnboundLocal
deriving DecidableEq

/-- BitVM.py, lines 208-216, as executed: the loop tests
`script.startswith("OP_RETURN") and commitment.hex() in script` and stops
on the first hit.  `commitment?` is the value of the local `commitment` at
scan time — `some` bytes once assigned, `none` while unbound.  A script
not starting with "OP_RETURN" short-circuits past the second conjunct;
one that does start with it evaluates `commitment.hex()`, which raises
UnboundLocalError when the local is still unbound.  In `process_challenge`
the scan runs at line 211 while `commitment` is assigned only at lines
224/226 of the same function, so there the scan runs with `none`. -/
def scanOutputs (commitment? : Option (List Nat)) :
    List (List Char) → Except PyError Bool
  | [] => Except.ok false
  | script :: rest =>
    if leadsWith opReturnTag script then
      match commitment? with
      | none => Except.error PyError.UnboundLocal
      | some c =>
        if containsSeq (hexEncode c) script then Except.ok true
        else scanOutputs commitment? rest
    else scanOutputs commitment? rest

theorem leadsWith_iff (p s : List Char) :
    leadsWith p s = true ↔ ∃ rest, s = p ++ rest := by
  induction p generalizing s with
  | nil => simp [leadsWith]
  | cons a ps ih =>
    cases s with
    | nil =>
      simp only [leadsWith, Bool.false_eq_true, false_iff]
      rintro ⟨rest, h⟩
      exact List.cons_ne_nil a (ps ++ rest) h.symm
    | cons c cs =>
      rw [show leadsWith (a :: ps) (c :: cs) = ((a == c) && leadsWith ps cs)
            from rfl,
          Bool.and_eq_true, beq_iff_eq, ih]
      constructor
      · rintro ⟨rfl, rest, rfl⟩
        exact ⟨rest, rfl⟩
      · rintro ⟨rest, heq⟩
        injection heq with h1 h2
        exact ⟨h1.symm, rest, h2⟩

theorem containsSeq_iff (p s : List Char) :
    containsSeq p s = true ↔ ∃ pre post, s = pre ++ p ++ post := by
  induction s with
  | nil =>
    rw [show containsSeq p [] = p.isEmpty from rfl, List.isEmpty_iff]
    constructor
    · rintro rfl
      exact ⟨[], [], rfl⟩
    · rintro ⟨pre, post, h⟩
      have h2 := h.symm
      simp only [List.append_assoc, List.append_eq_nil] at h2
      exact h2.2.1
  | cons c cs ih =>
    rw [show containsSeq p (c :: cs) =
          (leadsWith p (c :: cs) || containsSeq p cs) from rfl,
        Bool.or_eq_true, leadsWith_iff, ih]
    constructor
    · rintro (⟨rest, hr⟩ | ⟨pre, post, hr⟩)
      · exact ⟨[], rest, by simpa using hr⟩
      · exact ⟨c :: pre, post, by simp [hr]⟩
    · rintro ⟨pre, post, h⟩
      cases pre with
      | nil => exact Or.inl ⟨post, by simpa using h⟩
      | cons x xs =>
        rw [List.cons_append, List.cons_append] at h
        injection h with h1 h2
        exact Or.inr ⟨xs, post, by simpa using h2⟩

/-- C5 (code bug): at a broadcast transaction whose single output script
is "OP_RETURN ab", with expected commitment byte 0xab — whose hex
rendering "ab" IS a substring of that OP_RETURN data script — the scan as
the source executes it raises UnboundLocalError instead of returning
true: line 211 reads the local `commitment`, which is assigned only at
lines 224/226 of the same function, so at scan time it is unbound.  With
no OP_RETURN output the scan completes and returns false; it can never
return true, against the claimed iff (which matches the evident intent
of the later commitment computation and of spec 4.4). -/
theorem spec_C5_code_bug :
    scanOutputs none ["OP_RETURN ab".toList] =
      Except.error PyError.UnboundLocal ∧
    containsSeq (hexEncode [0xab]) "OP_RETURN ab".toList = true ∧
    scanOutputs none ["pay-to-key".toList] = Except.ok false :=
  ⟨rfl, by decide, rfl⟩

/-! The challenge script tree (PSBTgen.py, lines 30-56) and the per-block
artifacts `process_challenge` writes (BitVM.py, lines 155-174). -/

/-- A leaf of the Taproot script tree: one auto-transition challenge step
(PSBTgen.py, lines 39-48: reveal `currentData` hashing to `expectedHash`,
or operator claim after `timeout`), or the operator fallback
(line 51, timeout 300). -/
inductive TapLeaf where
  | step (currentData expectedHash : List Nat) (timeout : Nat)
  | fallback (timeout : Nat)
deriving DecidableEq

/-- PSBTgen.py, lines 34-48: one step leaf per `i in range(len(chain) - 1)`,
with `current_data = chain[i+1]`, `expected_hash = chain[i]`,
`timeout = timeouts[i]`. -/
def buildStepLeaves (chain : List (List Nat)) (timeouts : List Nat) :
    List TapLeaf :=
  (List.range (chain.length - 1)).map (fun i =>
    TapLeaf.step (chain.getD (i + 1) []) (chain.getD i []) (timeouts.getD i 0))

/-- PSBTgen.py, lines 51-54: `TaprootScriptTree([leaf_op] + scripts)` — the
operator-fallback leaf followed by the step leaves. -/
def buildTree (chain : List (List Nat)) (timeouts : List Nat) : List TapLeaf :=
  TapLeaf.fallback 300 :: buildStepLeaves chain timeouts

/-- BitVM.py, lines 156-158: content of the exported
`..._proof.json` file. -/
structure ProofFile where
  proof_steps : List (List Char)
  verified : Bool
deriving DecidableEq

/-- BitVM.py, lines 163-169: one descriptor of the tree file's
`tapleaf_tree` list. -/
structure LeafDescriptor where
  name : List Char
  script : List Char
  tapleaf_version : List Char
deriving DecidableEq

def stepDescriptor (i : Nat) (step : List Char) : LeafDescriptor :=
  { name := "step_".toList ++ Nat.toDigits 10 i,
    script := "OP_SHA256 ".toList ++ step ++ " OP_EQUAL".toList,
    tapleaf_version := "c0".toList }

/-- BitVM.py, lines 162-170: the tree file's descriptor list enumerates
`block.get("step_chain", [])` — one descriptor per chain ELEMENT. -/
def treeFileDescriptors (chain : List (List Char)) : List LeafDescriptor :=
  (chain.enum).map (fun p => stepDescriptor p.1 p.2)

/-- BitVM.py, lines 155-174: per processed block, `process_challenge`
writes exactly one proof file (lines 156-158) and exactly one tree file
(lines 171-174); this function is their content. -/
def challengeArtifacts (b : RollupBlock) : ProofFile × List LeafDescriptor :=
  ({ proof_steps := b.step_chain, verified := verifyChain b.step_chain },
   treeFileDescriptors b.step_chain)

/-- The end-to-end scenario chain: the fixed 4-byte seed `b'init'` with
3 steps (PSBTgen.py, line 30). -/
def scenarioChain : List (List Nat) := BitVM.step_chain initSeed 3

/-- A stored block carrying the scenario chain hex-encoded, flagged
challenged. -/
def scenarioBlock : RollupBlock :=
  { challenged := true, proof_generated := false, proof_verified := false,
    step_chain := scenarioChain.map hexEncode }

theorem forwardChain_length (n : Nat) :
    ∀ s : List Nat, (BitVM.forwardChain s n).length = n + 1 := by
  induction n with
  | zero => intro s; rfl
  | succ n ih =>
    intro s
    show (s :: BitVM.forwardChain (sha256 s) n).length = n + 1 + 1
    rw [List.length_cons, ih]

theorem treeFileDescriptors_length (chain : List (List Char)) :
    (treeFileDescriptors chain).length = chain.length := by
  simp [treeFileDescriptors]

/-- C7 (as stated, refuted): in the end-to-end scenario the tree file's
step-leaf descriptor list does NOT have 3 entries — the source enumerates
the whole 4-element `step_chain`, one descriptor per chain element. -/
theorem spec_C7_counterexample :
    (challengeArtifacts scenarioBlock).2.length ≠ 3 := by
  have h4 : (challengeArtifacts scenarioBlock).2.length = 4 := by
    show (treeFileDescriptors (scenarioChain.map hexEncode)).length = 4
    rw [treeFileDescriptors_length, List.length_map]
    show (BitVM.step_chain initSeed 3).length = 4
    rw [BitVM.step_chain, List.length_reverse, forwardChain_length]
  omega

/-- C7 (amended): in the end-to-end scenario (4-byte seed, steps = 3,
timeouts [80,160,240]) the built chain has 4 elements, the script tree has
4 leaves (3 step leaves plus the operator fallback), and processing the
challenged block yields exactly one proof file and one tree file whose
descriptor list has 4 entries — one per chain element, not one per
step. -/
theorem spec_C7_amended :
    scenarioChain.length = 4 ∧
    (buildTree scenarioChain [80, 160, 240]).length = 4 ∧
    (buildStepLeaves scenarioChain [80, 160, 240]).length = 3 ∧
    (challengeArtifacts scenarioBlock).1.proof_steps =
      scenarioBlock.step_chain ∧
    (challengeArtifacts scenarioBlock).2.length = 4 := by
  have hlen : scenarioChain.length = 4 := by
    rw [scenarioChain, BitVM.step_chain, List.length_reverse,
        forwardChain_length]
  refine ⟨hlen, ?_, ?_, rfl, ?_⟩
  · simp [buildTree, buildStepLeaves, hlen]
  · simp [buildStepLeaves, hlen]
  · show (treeFileDescriptors (scenarioChain.map hexEncode)).length = 4
    rw [treeFileDescriptors_length, List.length_map, hlen]

/-! The unsigned challenge spend. -/

inductive SpendError where
  | InsufficientAmount
deriving DecidableEq

/-- The unsigned spending transaction of one challenge step: the input's
relative-timelock sequence, the main output value, and the zero-value
commitment output with its length-capped payload. -/
structure UnsignedSpend where
  nSequence : Nat
  mainValue : Int
  commitmentValue : Int
  commitmentPayload : List Char
deriving DecidableEq

/-- Modelled from the spec: `ChallengeTransactionBuilder.build_spend`
(spec 4.4) as a guarded constructor — the `InsufficientAmount` failure for
`fee >= amount` appears nowhere in the source, which builds the spend
inline with fixed funds (PSBTgen.py, lines 69-84).  The produced values
follow the source: the input sequence is the step's timeout (line 74), the
main output carries `amount_sats - fee` (line 81), the commitment output
is zero-valued (line 82) with its payload capped at 80 bytes
(BitVM.py, line 180). -/
def build_spend (timeout : Nat) (amount fee : Nat) (payload : List Char) :
    Except SpendError UnsignedSpend :=
  if amount ≤ fee then Except.error SpendError.InsufficientAmount
  else Except.ok
    { nSequence := timeout,
      mainValue := (amount : Int) - (fee : Int),
      commitmentValue := 0,
      commitmentPayload := payload.take 80 }

/-- C3: `build_spend` fails with InsufficientAmount exactly when
`fee >= amount`; when `fee < amount`, the main output of the constructed
unsigned spend carries exactly `amount - fee`. -/
theorem spec_C3 (timeout amount fee : Nat) (payload : List Char) :
    (fee ≥ amount →
      build_spend timeout amount fee payload =
        Except.error SpendError.InsufficientAmount) ∧
    (fee < amount →
      ∃ s, build_spend timeout amount fee payload = Except.ok s ∧
        s.mainValue = (amount : Int) - (fee : Int)) := by
  constructor
  · intro h
    rw [build_spend, if_pos h]
  · intro h
    rw [build_spend, if_neg (by omega)]
    exact ⟨_, rfl, rfl⟩

theorem spec_C3_witness :
    build_spend 80 5 7 [] = Except.error SpendError.InsufficientAmount ∧
    ∃ s, build_spend 80 5 2 [] = Except.ok s ∧
      s.mainValue = (5 : Int) - (2 : Int) :=
  ⟨(spec_C3 80 5 7 []).1 (by omega), (spec_C3 80 5 2 []).2 (by omega)⟩

end BRF
